import Mathlib

/-!
Shallow embedding of gnosis `src/analytics/aggregation.py` (`DataAggregator`):
the aggregation-function registry, `aggregate`, and `multi_level_pipeline`.

Modelling conventions:
* Tables are ordered column-name lists plus ordered rows of cells; a cell is a
  rational number, a string, or `null` (pandas NaN / missing).  Floating point
  is modelled by exact rational arithmetic; the irrational square roots that
  `std` / `sem` can produce are represented exactly by the constructor
  `Value.sqrtNum q` (meaning the nonnegative real root of `q`), normalised to
  `Value.num r` whenever `q` is a perfect rational square.
* pandas `groupby` semantics: rows whose key contains a null are dropped
  (`dropna=True`); pandas orders groups by sorted key, but no property stated
  here depends on the group order, and groups are kept in order of first
  occurrence, which keeps every definition structurally recursive.
* Python exceptions are `Except String`; a raised `ValueError` is `.error`.
* Python function objects are the inductive `PyFunc`; the identity test
  `func == len` of the source is `PyFunc.isLen`.
-/

namespace Gnosis

/-- Column names of a table. -/
abbrev ColName := String

/-- A cell of a table: an exact numeric value, the exact (irrational) square
root of a nonnegative rational as produced by `std`/`sem`, a string, or
`null` (pandas NaN / missing). -/
inductive Value where
  | num (q : ℚ)
  | sqrtNum (q : ℚ)
  | str (s : String)
  | null
deriving DecidableEq, Repr

/-- A row is the list of cells, aligned with the table's column list. -/
abbrev Row := List Value

/-- A pandas DataFrame: ordered column names and ordered rows. -/
structure Table where
  cols : List ColName
  rows : List Row
deriving DecidableEq, Repr

/-- pandas `DataFrame.empty`: true when there are no rows or no columns. -/
def Table.empty (t : Table) : Bool := t.rows.isEmpty || t.cols.isEmpty

/-- Extract the rational payload of a plain numeric cell. -/
def Value.asNum? : Value → Option ℚ
  | .num q => some q
  | _ => none

/-- Whether a cell can live in a numeric (float64) pandas column: numbers,
exact roots and NaN qualify, strings do not. -/
def Value.isNumLike : Value → Bool
  | .num _ => true
  | .sqrtNum _ => true
  | .null => true
  | .str _ => false

/-- The index of the first column named `c`, if any. -/
def colIdx? (c : ColName) : List ColName → Option ℕ
  | [] => none
  | c2 :: rest => if c2 = c then some 0 else (colIdx? c rest).map (· + 1)

/-- The cell of row `r` in column `c` of table `t` (null when absent). -/
def Table.cellAt (t : Table) (r : Row) (c : ColName) : Value :=
  match colIdx? c t.cols with
  | some i => r.getD i .null
  | none => .null

/-- The values of column `c`, top to bottom (`df[c]`). -/
def Table.column (t : Table) (c : ColName) : List Value :=
  t.rows.map (fun r => t.cellAt r c)

/-- `df.select_dtypes(include=np.number).columns`: the columns all of whose
cells are numeric-dtype cells. -/
def Table.numericCols (t : Table) : List ColName :=
  t.cols.filter (fun c => (t.column c).all Value.isNumLike)

/-- The designated value column of the source: `'score' if 'score' in
numeric_cols else numeric_cols[0]`. -/
def Table.aggCol (t : Table) : ColName :=
  if "score" ∈ t.numericCols then "score" else t.numericCols.headD ""

/-- The group key of a row: its cells in the `group_by` columns. -/
def Table.keyOf (t : Table) (group_by : List ColName) (r : Row) : List Value :=
  group_by.map (fun c => t.cellAt r c)

/-- The rows that `groupby` keeps: rows with no null in any key column
(pandas `dropna=True`). -/
def Table.validRows (t : Table) (group_by : List ColName) : List Row :=
  t.rows.filter (fun r => !decide (Value.null ∈ t.keyOf group_by r))

/-- First-occurrence deduplication, with an accumulator of keys already
emitted. -/
def uniqueFirstAux {α : Type} [DecidableEq α] (seen : List α) : List α → List α
  | [] => []
  | k :: ks =>
    if k ∈ seen then uniqueFirstAux seen ks
    else k :: uniqueFirstAux (k :: seen) ks

/-- The distinct elements of a list, in order of first occurrence. -/
def uniqueFirst {α : Type} [DecidableEq α] (l : List α) : List α :=
  uniqueFirstAux [] l

/-- The distinct group keys of `t.groupby(group_by)`. -/
def Table.groupKeys (t : Table) (group_by : List ColName) : List (List Value) :=
  uniqueFirst ((t.validRows group_by).map (t.keyOf group_by))

/-- The rows of the group with key `k` (the group sub-table's rows). -/
def Table.groupRows (t : Table) (group_by : List ColName) (k : List Value) : List Row :=
  (t.validRows group_by).filter (fun r => decide (t.keyOf group_by r = k))

/-- The whole sub-table of the group with key `k`: all columns, the group's
rows. -/
def Table.groupSubTable (t : Table) (group_by : List ColName) (k : List Value) : Table :=
  ⟨t.cols, t.groupRows group_by k⟩

/-- `grouped.size()` for one group: its number of rows. -/
def Table.groupSize (t : Table) (group_by : List ColName) (k : List Value) : ℕ :=
  (t.groupRows group_by k).length

/-- The raw values of column `c` inside the group with key `k`
(`grouped[c]`, NaNs included). -/
def Table.groupColVals (t : Table) (group_by : List ColName) (k : List Value)
    (c : ColName) : List Value :=
  (t.groupRows group_by k).map (fun r => t.cellAt r c)

/-- Column assignment `df[c] = vals`: overwrite the column if it exists,
append it otherwise. -/
def Table.setCol (t : Table) (c : ColName) (vals : List Value) : Table :=
  match colIdx? c t.cols with
  | some i => ⟨t.cols, t.rows.zipWith (fun r v => r.set i v) vals⟩
  | none => ⟨t.cols ++ [c], t.rows.zipWith (fun r v => r ++ [v]) vals⟩

/-! ### Numeric reductions (exact-rational model of numpy / pandas) -/

/-- Arithmetic mean of a list of rationals (0 on the empty list, which every
caller guards against). -/
def listMean (xs : List ℚ) : ℚ := xs.sum / xs.length

/-- Population variance, `ddof=0` (numpy default). -/
def popVarQ (xs : List ℚ) : ℚ :=
  ((xs.map (fun x => (x - listMean xs) ^ 2)).sum) / xs.length

/-- Sample variance, `ddof=1` (pandas default for `std`/`var`). -/
def sampleVarQ (xs : List ℚ) : ℚ :=
  ((xs.map (fun x => (x - listMean xs) ^ 2)).sum) / ((xs.length : ℚ) - 1)

/-- Insert into a sorted list of rationals. -/
def insertSorted (x : ℚ) : List ℚ → List ℚ
  | [] => [x]
  | y :: ys => if x ≤ y then x :: y :: ys else y :: insertSorted x ys

/-- Insertion sort on rationals (used only by the median reduction). -/
def sortQ : List ℚ → List ℚ
  | [] => []
  | x :: xs => insertSorted x (sortQ xs)

/-- Median of a list of rationals: middle element, or mean of the two middle
elements for even length. -/
def listMedian (xs : List ℚ) : ℚ :=
  let s := sortQ xs
  let n := s.length
  if n % 2 = 1 then s.getD (n / 2) 0
  else (s.getD (n / 2 - 1) 0 + s.getD (n / 2) 0) / 2

/-- Exact rational square root, when it exists. -/
def ratSqrt? (q : ℚ) : Option ℚ :=
  if q < 0 then none
  else
    let a := q.num.toNat
    let b := q.den
    let sa := Nat.sqrt a
    let sb := Nat.sqrt b
    if sa * sa == a && sb * sb == b then some ((sa : ℚ) / (sb : ℚ)) else none

/-- The nonnegative square root of `q` as a `Value`: exact rational when `q`
is a perfect square, the exact-root constructor otherwise. -/
def sqrtVal (q : ℚ) : Value :=
  match ratSqrt? q with
  | some r => .num r
  | none => .sqrtNum q

/-- The non-null numeric values of a cell list (what a skipna pandas
reduction consumes). -/
def nonNullNums (vs : List Value) : List ℚ := vs.filterMap Value.asNum?

/-- All cells as rationals when none is null (a NaN-propagating numpy
reduction returns NaN otherwise). -/
def numsIfAll (vs : List Value) : Option (List ℚ) :=
  if vs.all (fun v => (Value.asNum? v).isSome) then some (vs.filterMap Value.asNum?)
  else none

/-! ### Python function objects -/

/-- The Python function objects of the source: the numpy reductions held by
the registry, the builtin `len`, the `sem` lambda, and arbitrary
caller-supplied callables (which pandas `agg`/`apply` feed a Series, modelled
as its list of values). -/
inductive PyFunc where
  | npMean
  | npMedian
  | npStd
  | npMin
  | npMax
  | lenFn
  | npSum
  | npVar
  | semLambda
  | custom (f : List Value → Value)

/-- The source's identity test `func == len`. -/
def PyFunc.isLen : PyFunc → Bool
  | .lenFn => true
  | _ => false

/-- The `sem` lambda of the registry:
`lambda x: np.std(x, ddof=1) / np.sqrt(len(x)) if len(x) > 1 else np.nan`.
`np.std` propagates NaN; `std(x, ddof=1) / sqrt(n) = sqrt(sampleVar x / n)`. -/
def semFn (vs : List Value) : Value :=
  if vs.length > 1 then
    match numsIfAll vs with
    | some xs => sqrtVal (sampleVarQ xs / (xs.length : ℚ))
    | none => .null
  else .null

/-- Apply a Python function object to a Series (list of cell values).  The
numpy reductions propagate NaN and use `ddof=0`; `len` is the Series
length. -/
def PyFunc.apply : PyFunc → List Value → Value
  | .npMean, vs =>
    match numsIfAll vs with
    | some xs => if xs.isEmpty then .null else .num (listMean xs)
    | none => .null
  | .npMedian, vs =>
    match numsIfAll vs with
    | some xs => if xs.isEmpty then .null else .num (listMedian xs)
    | none => .null
  | .npStd, vs =>
    match numsIfAll vs with
    | some xs => if xs.isEmpty then .null else sqrtVal (popVarQ xs)
    | none => .null
  | .npMin, vs =>
    match numsIfAll vs with
    | some xs => match xs.min? with | some m => .num m | none => .null
    | none => .null
  | .npMax, vs =>
    match numsIfAll vs with
    | some xs => match xs.max? with | some m => .num m | none => .null
    | none => .null
  | .lenFn, vs => .num vs.length
  | .npSum, vs =>
    match numsIfAll vs with
    | some xs => .num xs.sum
    | none => .null
  | .npVar, vs =>
    match numsIfAll vs with
    | some xs => if xs.isEmpty then .null else .num (popVarQ xs)
    | none => .null
  | .semLambda, vs => semFn vs
  | .custom f, vs => f vs

/-! ### pandas string aggregation (`grouped[col].agg("name")`) -/

/-- pandas `mean`: skip NaN, NaN on an all-null group. -/
def pandasAggMean (vs : List Value) : Value :=
  let xs := nonNullNums vs
  if xs.isEmpty then .null else .num (listMean xs)

/-- pandas `median`: skip NaN, NaN on an all-null group. -/
def pandasAggMedian (vs : List Value) : Value :=
  let xs := nonNullNums vs
  if xs.isEmpty then .null else .num (listMedian xs)

/-- pandas `std`: skip NaN, sample standard deviation with `ddof=1` (the
pandas default), NaN when fewer than two non-null values. -/
def pandasAggStd (vs : List Value) : Value :=
  let xs := nonNullNums vs
  if xs.length < 2 then .null else sqrtVal (sampleVarQ xs)

/-- pandas `var`: skip NaN, sample variance with `ddof=1` (the pandas
default), NaN when fewer than two non-null values. -/
def pandasAggVar (vs : List Value) : Value :=
  let xs := nonNullNums vs
  if xs.length < 2 then .null else .num (sampleVarQ xs)

/-- pandas `min`: skip NaN, NaN on an all-null group. -/
def pandasAggMin (vs : List Value) : Value :=
  match (nonNullNums vs).min? with
  | some m => .num m
  | none => .null

/-- pandas `max`: skip NaN, NaN on an all-null group. -/
def pandasAggMax (vs : List Value) : Value :=
  match (nonNullNums vs).max? with
  | some m => .num m
  | none => .null

/-- pandas `sum`: skip NaN, 0 on an all-null group (`min_count=0`). -/
def pandasAggSum (vs : List Value) : Value :=
  .num (nonNullNums vs).sum

/-- The fixed list of line 84 of the source: string names that are routed to
the dataframe library's own string aggregation instead of the registry
entry. -/
def builtinAggNames : List String :=
  ["mean", "median", "std", "min", "max", "sum", "var"]

/-- `grouped[col].agg(name)` for one group's values, for the seven names of
`builtinAggNames` (no other name reaches this path). -/
def pandasStringAgg (s : String) (vs : List Value) : Value :=
  if s = "mean" then pandasAggMean vs
  else if s = "median" then pandasAggMedian vs
  else if s = "std" then pandasAggStd vs
  else if s = "min" then pandasAggMin vs
  else if s = "max" then pandasAggMax vs
  else if s = "sum" then pandasAggSum vs
  else if s = "var" then pandasAggVar vs
  else .null

/-! ### The aggregator -/

/-- A metric specification entry: a registered name or a caller-supplied
callable (`Dict[str, Union[str, Callable]]` values). -/
inductive MetricSpec where
  | name (s : String)
  | callable (f : PyFunc)

/-- An ordered metrics dictionary: output column name to specification. -/
abbrev Metrics := List (ColName × MetricSpec)

/-- The `DataAggregator` instance state: its mutable function registry. -/
structure DataAggregator where
  aggregation_functions : List (String × PyFunc)

/-- Registry lookup (newest registration wins, like Python dict
assignment). -/
def lookupFn (fns : List (String × PyFunc)) (s : String) : Option PyFunc :=
  (fns.find? (fun p => decide (p.1 = s))).map (·.2)

/-- `DataAggregator.__init__`: the built-in registry. -/
def DataAggregator.mk0 : DataAggregator :=
  ⟨[("mean", .npMean), ("median", .npMedian), ("std", .npStd), ("min", .npMin),
    ("max", .npMax), ("count", .lenFn), ("sum", .npSum), ("var", .npVar),
    ("sem", .semLambda)]⟩

/-- `register_aggregation_function`: add or overwrite a registry entry. -/
def DataAggregator.register_aggregation_function (ag : DataAggregator)
    (name : String) (func : PyFunc) : DataAggregator :=
  ⟨(name, func) :: ag.aggregation_functions⟩

/-- The group-by validation loop of `aggregate` (lines 47-49). -/
def checkGroupCols : List ColName → List ColName → Except String Unit
  | [], _ => .ok ()
  | c :: rest, cols =>
    if c ∈ cols then checkGroupCols rest cols
    else .error ("Group-by column " ++ c ++ " not found in data")

/-- Resolve a metric specification against the registry (lines 60-65). -/
def resolveMetric (ag : DataAggregator) : MetricSpec → Except String PyFunc
  | .name s =>
    match lookupFn ag.aggregation_functions s with
    | some f => .ok f
    | none => .error ("Unknown aggregation function: " ++ s)
  | .callable f => .ok f

/-- The per-group application a resolved non-count metric performs on the
designated value column: the dataframe library's own aggregation for the
seven built-in string names, the function object itself otherwise
(lines 84-87). -/
def appliedFn (spec : MetricSpec) (func : PyFunc) : List Value → Value :=
  match spec with
  | .name s => if s ∈ builtinAggNames then pandasStringAgg s else func.apply
  | .callable _ => func.apply

/-- The body of one iteration of the metric loop of `aggregate`
(lines 58-87): the values of the new output column, or the raised error. -/
def applyMetric (data : Table) (group_by : List ColName) (keys : List (List Value))
    (spec : MetricSpec) (func : PyFunc) : Except String (List Value) :=
  if func.isLen then
    .ok (keys.map (fun k => .num (data.groupSize group_by k)))
  else if data.numericCols.isEmpty then
    .error "No numeric columns found for aggregation"
  else
    .ok (keys.map (fun k => appliedFn spec func (data.groupColVals group_by k data.aggCol)))

/-- The metric loop of `aggregate`: resolve each metric, compute its column,
assign it to the result table. -/
def applyMetricsLoop (ag : DataAggregator) (data : Table) (group_by : List ColName)
    (keys : List (List Value)) : Metrics → Table → Except String Table
  | [], res => .ok res
  | (outCol, spec) :: rest, res =>
    match resolveMetric ag spec with
    | .error e => .error e
    | .ok func =>
      match applyMetric data group_by keys spec func with
      | .error e => .error e
      | .ok vals => applyMetricsLoop ag data group_by keys rest (res.setCol outCol vals)

/-- `DataAggregator.aggregate(data, group_by, metrics)` (lines 28-89). -/
def DataAggregator.aggregate (ag : DataAggregator) (data : Table)
    (group_by : List ColName) (metrics : Metrics) : Except String Table :=
  if data.empty then .ok ⟨group_by ++ metrics.map (·.1), []⟩
  else
    match checkGroupCols group_by data.cols with
    | .error e => .error e
    | .ok _ =>
      if group_by.isEmpty then .error "No group keys passed"
      else
        applyMetricsLoop ag data group_by (data.groupKeys group_by) metrics
          ⟨group_by, data.groupKeys group_by⟩

/-! ### The multi-level pipeline (lines 91-151)

`multi_level_pipeline` is modelled over an explicit object heap so that the
defensive-copy behaviour of the source is visible: `data.copy()` and
`current_data.copy()` allocate, filter / transform rebind the local variable
to a fresh object, and the per-row metric assignment
`stage_data[col_name] = ...` mutates the stage's own object in place.
User-supplied filter, transform and metric functions are pure Lean functions
(the claims assume they do not mutate their argument). -/

/-- An object heap for DataFrames; a reference is an index, allocation
appends. -/
abbrev Heap := List Table

/-- A reference to a table object on the heap. -/
abbrev Ref := ℕ

/-- Dereference (out-of-range reads give the empty table; theorems only use
in-range references). -/
def Heap.getT (h : Heap) (r : Ref) : Table := h.getD r ⟨[], []⟩

/-- Allocate a fresh table object, returning the new heap and reference. -/
def Heap.allocT (h : Heap) (t : Table) : Heap × Ref := (h ++ [t], h.length)

/-- In-place mutation of the object at `r`. -/
def Heap.setT (h : Heap) (r : Ref) (t : Table) : Heap := h.set r t

/-- A row handed to a filter predicate or row function, with its column
names (a pandas row Series). -/
abbrev RowRecord := List (ColName × Value)

/-- Attach column names to a row's cells. -/
def Table.rowRecord (t : Table) (r : Row) : RowRecord := t.cols.zip r

/-- One pipeline stage configuration dict (line 97-103): `none` models an
absent key or a `None` value; the runner replicates the source's Python
truthiness tests on `metrics` and `group_by`. -/
structure Stage where
  name : String
  filter : Option (RowRecord → Bool) := none
  transform : Option (Table → Table) := none
  metrics : Option Metrics := none
  group_by : Option (List ColName) := none
  output_to_next : Bool := false

/-- Resolve a per-row metric (lines 134-141; the error message differs from
the one in `aggregate`). -/
def resolveRowMetric (ag : DataAggregator) : MetricSpec → Except String PyFunc
  | .name s =>
    match lookupFn ag.aggregation_functions s with
    | some f => .ok f
    | none => .error ("Unknown function: " ++ s)
  | .callable f => .ok f

/-- The per-row metric loop (lines 134-142): each metric mutates the stage's
object in place, adding the column `stage_data.apply(func, axis=1)`. -/
def runRowMetricsH (ag : DataAggregator) : Metrics → Heap → Ref → Except String Heap
  | [], h, _ => .ok h
  | (colName, spec) :: rest, h, sd =>
    match resolveRowMetric ag spec with
    | .error e => .error e
    | .ok func =>
      let t := h.getT sd
      runRowMetricsH ag rest
        (h.setT sd (t.setCol colName (t.rows.map (fun r => func.apply r)))) sd

/-- `df[df.apply(filter_func, axis=1)]`: keep the rows satisfying the
predicate. -/
def filterTable (pred : RowRecord → Bool) (t : Table) : Table :=
  ⟨t.cols, t.rows.filter (fun r => pred (t.rowRecord r))⟩

/-- The first half of a stage (lines 113-123): `stage_data = current.copy()`,
then the optional filter and transform, each rebinding `stage_data` to a
fresh object. -/
def stagePrep (h : Heap) (cur : Ref) (st : Stage) : Heap × Ref :=
  let p1 := h.allocT (h.getT cur)
  let p2 :=
    match st.filter with
    | some pred => p1.1.allocT (filterTable pred (p1.1.getT p1.2))
    | none => p1
  match st.transform with
  | some f => p2.1.allocT (f (p2.1.getT p2.2))
  | none => p2

/-- One iteration of the stage loop (lines 111-145 up to the result store):
returns the heap and the reference `stage_data` holds at the end of the
stage. -/
def runStageH (ag : DataAggregator) (h : Heap) (cur : Ref) (st : Stage) :
    Except String (Heap × Ref) :=
  let h3 := (stagePrep h cur st).1
  let sd3 := (stagePrep h cur st).2
  match st.metrics with
  | some m =>
    if m.isEmpty then .ok (h3, sd3)
    else
      match st.group_by with
      | some g =>
        if g.isEmpty then
          match runRowMetricsH ag m h3 sd3 with
          | .error e => .error e
          | .ok h4 => .ok (h4, sd3)
        else
          match ag.aggregate (h3.getT sd3) g m with
          | .error e => .error e
          | .ok res => .ok (h3.allocT res)
      | none =>
        match runRowMetricsH ag m h3 sd3 with
        | .error e => .error e
        | .ok h4 => .ok (h4, sd3)
  | none => .ok (h3, sd3)

/-- The stage loop: thread the results dictionary and the carried-forward
`current_data` reference (updated only when `output_to_next` is truthy,
line 148). -/
def runStagesH (ag : DataAggregator) (h : Heap) (cur : Ref) :
    List Stage → Except String (Heap × List (String × Ref) × Ref)
  | [] => .ok (h, [], cur)
  | st :: rest =>
    match runStageH ag h cur st with
    | .error e => .error e
    | .ok (h1, sd) =>
      match runStagesH ag h1 (if st.output_to_next then sd else cur) rest with
      | .error e => .error e
      | .ok (h2, res, curF) => .ok (h2, (st.name, sd) :: res, curF)

/-- `DataAggregator.multi_level_pipeline(data, pipeline_config)`: copy the
input (`current_data = data.copy()`, line 109), run the stages, return the
stage-name-to-result mapping. -/
def DataAggregator.multi_level_pipeline (ag : DataAggregator) (h : Heap)
    (dataRef : Ref) (pipeline_config : List Stage) :
    Except String (Heap × List (String × Ref)) :=
  match runStagesH ag (h.allocT (h.getT dataRef)).1 (h.allocT (h.getT dataRef)).2
      pipeline_config with
  | .error e => .error e
  | .ok (h2, res, _) => .ok (h2, res)

/-! ### Supporting lemmas -/

theorem checkGroupCols_ok {g cols : List ColName} (h : ∀ c ∈ g, c ∈ cols) :
    checkGroupCols g cols = .ok () := by
  induction g with
  | nil => rfl
  | cons c rest ih =>
    have hc : c ∈ cols := h c (List.mem_cons_self c rest)
    simp only [checkGroupCols, hc, if_true]
    exact ih fun c2 hc2 => h c2 (List.mem_cons_of_mem c hc2)

theorem checkGroupCols_error {g cols : List ColName} {c : ColName} (hc : c ∈ g)
    (hnc : c ∉ cols) : ∃ msg, checkGroupCols g cols = .error msg := by
  induction g with
  | nil => cases hc
  | cons c2 rest ih =>
    by_cases h2 : c2 ∈ cols
    · rcases List.mem_cons.mp hc with rfl | hrest
      · exact absurd h2 hnc
      · obtain ⟨msg, hm⟩ := ih hrest
        refine ⟨msg, ?_⟩
        simp only [checkGroupCols, h2, if_true]
        exact hm
    · refine ⟨"Group-by column " ++ c2 ++ " not found in data", ?_⟩
      simp only [checkGroupCols]
      rw [if_neg h2]

/-- Unfolding of `aggregate` on a valid non-empty call with a single metric
whose specification resolves. -/
theorem aggregate_single {ag : DataAggregator} {data : Table} {G : List ColName}
    {out : ColName} {spec : MetricSpec} {func : PyFunc}
    (hne : data.empty = false) (hG : ∀ c ∈ G, c ∈ data.cols) (hG0 : G ≠ [])
    (hres : resolveMetric ag spec = .ok func) :
    ag.aggregate data G [(out, spec)] =
      match applyMetric data G (data.groupKeys G) spec func with
      | .error e => .error e
      | .ok vals => .ok (Table.setCol ⟨G, data.groupKeys G⟩ out vals) := by
  have h0 : G.isEmpty = false := by
    cases G with
    | nil => exact absurd rfl hG0
    | cons a l => rfl
  unfold DataAggregator.aggregate
  rw [hne, checkGroupCols_ok hG]
  simp only [Bool.false_eq_true, if_false, h0, applyMetricsLoop, hres]

/-! ### C4: empty input gives an empty, correctly-shaped result -/

/-- C4: for every group-by list `G` and metric specification `M`, `aggregate`
on an empty input table never raises and returns a zero-row table whose
columns are exactly `G` followed by the metric output names. -/
theorem aggregate_empty_input_shape (ag : DataAggregator) (data : Table)
    (G : List ColName) (M : Metrics) (hempty : data.empty = true) :
    ag.aggregate data G M = .ok ⟨G ++ M.map (·.1), []⟩ := by
  unfold DataAggregator.aggregate
  rw [hempty]
  simp

/-- Witness for C4 at a concrete empty table. -/
theorem aggregate_empty_input_shape_witness :
    Table.empty ⟨["col1", "col2"], []⟩ = true ∧
      DataAggregator.mk0.aggregate ⟨["col1", "col2"], []⟩ ["col1"]
        [("mean_col2", .name "mean")] = .ok ⟨["col1", "mean_col2"], []⟩ :=
  ⟨rfl, aggregate_empty_input_shape _ _ _ _ rfl⟩

/-! ### C10: the empty-input return happens before any validation -/

/-- C10: on an empty input table, `aggregate` returns its empty-shaped result
before performing any validation: a group-by column absent from the table and
an unregistered string metric name are both tolerated without raising. -/
theorem aggregate_empty_before_validation (ag : DataAggregator) (data : Table)
    (G : List ColName) (M : Metrics) (c out : ColName) (s : String)
    (hempty : data.empty = true) (hc : c ∈ G) (hcol : c ∉ data.cols)
    (hs : lookupFn ag.aggregation_functions s = none)
    (hm : (out, MetricSpec.name s) ∈ M) :
    ag.aggregate data G M = .ok ⟨G ++ M.map (·.1), []⟩ := by
  unfold DataAggregator.aggregate
  rw [hempty]
  simp

/-- Witness for C10: an invalid group-by column and an unknown metric name on
an empty table. -/
theorem aggregate_empty_before_validation_witness :
    Table.empty ⟨["col1"], []⟩ = true ∧ "zzz" ∈ ["zzz"] ∧
      "zzz" ∉ (Table.mk ["col1"] []).cols ∧
      lookupFn DataAggregator.mk0.aggregation_functions "bogus" = none ∧
      DataAggregator.mk0.aggregate ⟨["col1"], []⟩ ["zzz"] [("m", .name "bogus")] =
        .ok ⟨["zzz", "m"], []⟩ :=
  ⟨rfl, by simp, by simp, rfl,
    aggregate_empty_before_validation DataAggregator.mk0 ⟨["col1"], []⟩ ["zzz"]
      [("m", .name "bogus")] "zzz" "m" "bogus" rfl (by simp) (by simp) rfl
      (by simp)⟩

/-! ### Concrete example tables for counterexamples and witnesses -/

/-- Two rows, one group, two numeric columns (used to separate
column-callable from sub-table-callable behaviour). -/
def tableTwoNumCols : Table :=
  ⟨["g", "score", "other"],
   [[.str "a", .num 10, .num 100], [.str "a", .num 20, .num 200]]⟩

/-- A callable summing the numeric values of whatever Series it receives. -/
def sumNumsFn : List Value → Value := fun vs => .num (nonNullNums vs).sum

/-- The sum of every numeric cell of a table (the value `sumNumsFn` would
produce on a whole sub-table). -/
def Table.sumAllNums (t : Table) : ℚ := (t.rows.map (fun r => (nonNullNums r).sum)).sum

/-- C1 counterexample: with two numeric columns, the metric value delivered
for a caller-supplied callable is the callable applied to the designated
value column `score` alone (10 + 20 = 30), not to the entire group sub-table
(whose numeric content sums to 330): `grouped[agg_col].agg(func)` passes a
single column. -/
theorem aggregate_callable_column_cex :
    DataAggregator.mk0.aggregate tableTwoNumCols ["g"]
        [("m", .callable (.custom sumNumsFn))] =
      .ok ⟨["g", "m"], [[.str "a", .num 30]]⟩ ∧
    Table.sumAllNums (tableTwoNumCols.groupSubTable ["g"] [.str "a"]) = 330 ∧
    (330 : ℚ) ≠ 30 := by
  have hnn : sumNumsFn [Value.num 10, Value.num 20] = .num ((10 : ℚ) + (20 + 0)) := rfl
  have hcell : sumNumsFn [Value.num 10, Value.num 20] = .num 30 := by
    rw [hnn]; norm_num
  have hsub : tableTwoNumCols.groupSubTable ["g"] [.str "a"] =
      ⟨["g", "score", "other"],
       [[.str "a", .num 10, .num 100], [.str "a", .num 20, .num 200]]⟩ := rfl
  refine ⟨?_, ?_, by norm_num⟩
  · have h0 : DataAggregator.mk0.aggregate tableTwoNumCols ["g"]
        [("m", .callable (.custom sumNumsFn))] =
        .ok ⟨["g", "m"], [[.str "a", sumNumsFn [Value.num 10, Value.num 20]]]⟩ := rfl
    rw [hcell] at h0
    exact h0
  · rw [hsub]
    have h1 : nonNullNums [Value.str "a", Value.num 10, Value.num 100] = [10, 100] := rfl
    have h2 : nonNullNums [Value.str "a", Value.num 20, Value.num 200] = [20, 200] := rfl
    simp only [Table.sumAllNums, List.map_cons, List.map_nil, h1, h2, List.sum_cons,
      List.sum_nil]
    norm_num

/-- Two rows 0 and 2 in one group: sample variance 2, population variance 1. -/
def tableVarPair : Table := ⟨["g", "score"], [[.str "a", .num 0], [.str "a", .num 2]]⟩

/-- C2 counterexample: requesting `"var"` by string name on the group
`{0, 2}` yields 2, the sample variance with `ddof=1` (the dataframe library's
string-aggregation default), while the claimed population variance with
`ddof=0` is 1. -/
theorem aggregate_var_ddof_cex :
    DataAggregator.mk0.aggregate tableVarPair ["g"] [("v", .name "var")] =
      .ok ⟨["g", "v"], [[.str "a", .num 2]]⟩ ∧
    popVarQ [0, 2] = 1 ∧ (2 : ℚ) ≠ 1 := by
  have h1 : pandasStringAgg "var" [Value.num 0, Value.num 2] =
      .num (sampleVarQ [0, 2]) := rfl
  have harith : sampleVarQ [0, 2] = 2 := by
    norm_num [sampleVarQ, listMean]
  have hcell : pandasStringAgg "var" [Value.num 0, Value.num 2] = .num 2 := by
    rw [h1, harith]
  refine ⟨?_, ?_, by norm_num⟩
  · have h0 : DataAggregator.mk0.aggregate tableVarPair ["g"] [("v", .name "var")] =
        .ok ⟨["g", "v"], [[.str "a", pandasStringAgg "var" [Value.num 0, Value.num 2]]]⟩ :=
      rfl
    rw [hcell] at h0
    exact h0
  · norm_num [popVarQ, listMean]

/-- C5 counterexample: on an empty input table, an unknown metric name
together with a group-by column that does not exist in the table raises
nothing: `aggregate` returns an empty result instead of a `ValueError`. -/
theorem aggregate_empty_skips_errors_cex :
    DataAggregator.mk0.aggregate ⟨["col1"], []⟩ ["zzz"] [("m", .name "bogus")] =
      .ok ⟨["zzz", "m"], []⟩ ∧
    lookupFn DataAggregator.mk0.aggregation_functions "bogus" = none ∧
    "zzz" ∉ (Table.mk ["col1"] []).cols :=
  ⟨rfl, rfl, by simp [Table.mk]⟩

/-- One row whose group-key cell is null. -/
def tableNullKey : Table := ⟨["g", "score"], [[.null, .num 1]]⟩

/-- C6 counterexample: a row whose group-by cell is null is dropped by the
grouping, so the count column is empty and its sum 0 differs from
`len(T) = 1`. -/
theorem aggregate_count_null_key_cex :
    DataAggregator.mk0.aggregate tableNullKey ["g"] [("count", .name "count")] =
      .ok ⟨["g", "count"], []⟩ ∧
    tableNullKey.rows.length = 1 ∧
    (nonNullNums ((Table.mk ["g", "count"] []).column "count")).sum = 0 ∧
    (0 : ℚ) ≠ 1 :=
  ⟨rfl, rfl, rfl, by norm_num⟩

/-- Two rows in one group, for the registry-overwrite counterexample. -/
def tableRegPair : Table := ⟨["g", "score"], [[.str "a", .num 10], [.str "a", .num 20]]⟩

/-- C9 counterexample: registering the row-count builtin `len` under the name
`"mean"` does change the output of `aggregate` — the `func == len` test then
routes `"mean"` to the group-size path (2) instead of the mean (15) — so the
claim does not hold for every function `f`. -/
theorem register_len_overwrite_cex :
    (DataAggregator.mk0.register_aggregation_function "mean" .lenFn).aggregate
        tableRegPair ["g"] [("m", .name "mean")] =
      .ok ⟨["g", "m"], [[.str "a", .num 2]]⟩ ∧
    DataAggregator.mk0.aggregate tableRegPair ["g"] [("m", .name "mean")] =
      .ok ⟨["g", "m"], [[.str "a", .num 15]]⟩ ∧
    (Value.num 2 : Value) ≠ .num 15 := by
  have hm1 : pandasStringAgg "mean" [Value.num 10, Value.num 20] =
      .num (listMean [10, 20]) := rfl
  have hm2 : listMean [10, 20] = 15 := by norm_num [listMean]
  have hmean : pandasStringAgg "mean" [Value.num 10, Value.num 20] = .num 15 := by
    rw [hm1, hm2]
  have hs1 : tableRegPair.groupSize ["g"] [.str "a"] = 2 := rfl
  have hsize : (Value.num (tableRegPair.groupSize ["g"] [.str "a"] : ℚ)) = .num 2 := by
    rw [hs1]; norm_num
  refine ⟨?_, ?_, by simp⟩
  · have h0 : (DataAggregator.mk0.register_aggregation_function "mean" .lenFn).aggregate
        tableRegPair ["g"] [("m", .name "mean")] =
        .ok ⟨["g", "m"], [[.str "a", .num (tableRegPair.groupSize ["g"] [.str "a"] : ℚ)]]⟩ :=
      rfl
    rw [hsize] at h0
    exact h0
  · have h0 : DataAggregator.mk0.aggregate tableRegPair ["g"] [("m", .name "mean")] =
        .ok ⟨["g", "m"], [[.str "a", pandasStringAgg "mean" [Value.num 10, Value.num 20]]]⟩ :=
      rfl
    rw [hmean] at h0
    exact h0

/-! ### C1 (amended): callables receive the designated value column -/

/-- C1 (amended): for every non-empty table, valid group-by list and
caller-supplied callable metric, `aggregate` passes the callable the
designated value column of each group (the raw values of the `score` column
if it is numeric, else of the first numeric column), not the whole group
sub-table, and uses its return value as the metric value for that group. -/
theorem aggregate_callable_receives_value_column (ag : DataAggregator) (data : Table)
    (G : List ColName) (out : ColName) (f : List Value → Value)
    (hne : data.empty = false) (hG : ∀ c ∈ G, c ∈ data.cols) (hG0 : G ≠ [])
    (hnum : data.numericCols.isEmpty = false) :
    ag.aggregate data G [(out, .callable (.custom f))] =
      .ok (Table.setCol ⟨G, data.groupKeys G⟩ out
        ((data.groupKeys G).map (fun k => f (data.groupColVals G k data.aggCol)))) := by
  rw [aggregate_single hne hG hG0 (show resolveMetric ag (.callable (.custom f)) =
    .ok (.custom f) from rfl)]
  simp only [applyMetric, PyFunc.isLen, Bool.false_eq_true, if_false, hnum, appliedFn,
    PyFunc.apply]

/-- Witness for C1's amended theorem at a concrete two-numeric-column table. -/
theorem aggregate_callable_receives_value_column_witness :
    Table.empty tableTwoNumCols = false ∧ (∀ c ∈ ["g"], c ∈ tableTwoNumCols.cols) ∧
    (["g"] ≠ ([] : List ColName)) ∧ tableTwoNumCols.numericCols.isEmpty = false ∧
    DataAggregator.mk0.aggregate tableTwoNumCols ["g"]
        [("m", .callable (.custom sumNumsFn))] =
      .ok (Table.setCol ⟨["g"], tableTwoNumCols.groupKeys ["g"]⟩ "m"
        ((tableTwoNumCols.groupKeys ["g"]).map
          (fun k => sumNumsFn (tableTwoNumCols.groupColVals ["g"] k
            tableTwoNumCols.aggCol)))) :=
  ⟨rfl, by simp [tableTwoNumCols], by simp, rfl,
    aggregate_callable_receives_value_column DataAggregator.mk0 tableTwoNumCols ["g"]
      "m" sumNumsFn rfl (by simp [tableTwoNumCols]) (by simp) rfl⟩

/-! ### C2 (amended): std / var / sem ddof semantics -/

/-- `pandasStringAgg` at the literal names (definitional). -/
theorem pandasStringAgg_var : pandasStringAgg "var" = pandasAggVar := rfl

theorem pandasStringAgg_std : pandasStringAgg "std" = pandasAggStd := rfl

theorem semLambda_apply : PyFunc.apply .semLambda = semFn := rfl

/-- C2 (amended): requesting `"std"` (resp. `"var"`) by string name computes,
over the non-null values of each group's designated value column, the sample
standard deviation (resp. sample variance) with `ddof=1` — the dataframe
library's string-aggregation default, not `ddof=0` — and `"sem"` is the
registry lambda, which uses `ddof=1` explicitly. -/
theorem aggregate_std_var_sem_ddof1 (data : Table) (G : List ColName) (out : ColName)
    (hne : data.empty = false) (hG : ∀ c ∈ G, c ∈ data.cols) (hG0 : G ≠ [])
    (hnum : data.numericCols.isEmpty = false) :
    (DataAggregator.mk0.aggregate data G [(out, .name "var")] =
      .ok (Table.setCol ⟨G, data.groupKeys G⟩ out
        ((data.groupKeys G).map (fun k =>
          pandasAggVar (data.groupColVals G k data.aggCol))))) ∧
    (DataAggregator.mk0.aggregate data G [(out, .name "std")] =
      .ok (Table.setCol ⟨G, data.groupKeys G⟩ out
        ((data.groupKeys G).map (fun k =>
          pandasAggStd (data.groupColVals G k data.aggCol))))) ∧
    (DataAggregator.mk0.aggregate data G [(out, .name "sem")] =
      .ok (Table.setCol ⟨G, data.groupKeys G⟩ out
        ((data.groupKeys G).map (fun k =>
          semFn (data.groupColVals G k data.aggCol))))) := by
  refine ⟨?_, ?_, ?_⟩
  · rw [aggregate_single hne hG hG0 (show resolveMetric DataAggregator.mk0
      (.name "var") = .ok .npVar from rfl)]
    simp only [applyMetric, PyFunc.isLen, Bool.false_eq_true, if_false, hnum, appliedFn]
    rw [if_pos (by simp [builtinAggNames]), pandasStringAgg_var]
  · rw [aggregate_single hne hG hG0 (show resolveMetric DataAggregator.mk0
      (.name "std") = .ok .npStd from rfl)]
    simp only [applyMetric, PyFunc.isLen, Bool.false_eq_true, if_false, hnum, appliedFn]
    rw [if_pos (by simp [builtinAggNames]), pandasStringAgg_std]
  · rw [aggregate_single hne hG hG0 (show resolveMetric DataAggregator.mk0
      (.name "sem") = .ok .semLambda from rfl)]
    simp only [applyMetric, PyFunc.isLen, Bool.false_eq_true, if_false, hnum, appliedFn]
    rw [if_neg (by simp [builtinAggNames]), semLambda_apply]

/-- Witness for C2's amended theorem at a concrete table. -/
theorem aggregate_std_var_sem_ddof1_witness :
    Table.empty tableVarPair = false ∧ (∀ c ∈ ["g"], c ∈ tableVarPair.cols) ∧
    (["g"] ≠ ([] : List ColName)) ∧ tableVarPair.numericCols.isEmpty = false ∧
    (DataAggregator.mk0.aggregate tableVarPair ["g"] [("v", .name "var")] =
      .ok (Table.setCol ⟨["g"], tableVarPair.groupKeys ["g"]⟩ "v"
        ((tableVarPair.groupKeys ["g"]).map (fun k =>
          pandasAggVar (tableVarPair.groupColVals ["g"] k tableVarPair.aggCol))))) :=
  ⟨rfl, by simp [tableVarPair], by simp, rfl,
    (aggregate_std_var_sem_ddof1 tableVarPair ["g"] "v" rfl (by simp [tableVarPair])
      (by simp) rfl).1⟩

/-! ### C7: designated value column selection and the no-numeric-columns error -/

/-- C7: for every non-empty table and every non-count metric (resolved
function not the row-count builtin), `aggregate` applies the reduction to
exactly one designated value column — the column named `score` if it is among
the numeric columns, otherwise the first numeric column in column order — and
raises the no-numeric-columns error when the table has no numeric columns. -/
theorem aggregate_value_column_selection (ag : DataAggregator) (data : Table)
    (G : List ColName) (out : ColName) (spec : MetricSpec) (func : PyFunc)
    (hne : data.empty = false) (hG : ∀ c ∈ G, c ∈ data.cols) (hG0 : G ≠ [])
    (hres : resolveMetric ag spec = .ok func) (hlen : func.isLen = false) :
    (data.numericCols.isEmpty = false →
      ag.aggregate data G [(out, spec)] =
        .ok (Table.setCol ⟨G, data.groupKeys G⟩ out
          ((data.groupKeys G).map (fun k =>
            appliedFn spec func (data.groupColVals G k data.aggCol))))) ∧
    (data.numericCols.isEmpty = true →
      ag.aggregate data G [(out, spec)] =
        .error "No numeric columns found for aggregation") ∧
    ("score" ∈ data.numericCols → data.aggCol = "score") ∧
    ("score" ∉ data.numericCols → data.aggCol = data.numericCols.headD "") := by
  refine ⟨?_, ?_, ?_, ?_⟩
  · intro hnum
    rw [aggregate_single hne hG hG0 hres]
    simp only [applyMetric, hlen, Bool.false_eq_true, if_false, hnum]
  · intro hnum
    rw [aggregate_single hne hG hG0 hres]
    simp only [applyMetric, hlen, Bool.false_eq_true, if_false, hnum, if_true]
  · intro hsc
    simp only [Table.aggCol, hsc, if_true]
  · intro hsc
    simp only [Table.aggCol, hsc, if_false]

/-- One group, `score` present but not the first numeric column. -/
def tableScoreSecond : Table :=
  ⟨["g", "other", "score"], [[.str "a", .num 1, .num 5]]⟩

/-- One group, no numeric column at all. -/
def tableNoNums : Table := ⟨["g"], [[.str "a"]]⟩

/-- Witness for C7 at two concrete tables: one where `score` is designated
although another numeric column comes first, one with no numeric columns. -/
theorem aggregate_value_column_selection_witness :
    (tableScoreSecond.aggCol = "score" ∧
      DataAggregator.mk0.aggregate tableScoreSecond ["g"] [("m", .name "sum")] =
        .ok (Table.setCol ⟨["g"], tableScoreSecond.groupKeys ["g"]⟩ "m"
          ((tableScoreSecond.groupKeys ["g"]).map (fun k =>
            appliedFn (.name "sum") .npSum
              (tableScoreSecond.groupColVals ["g"] k tableScoreSecond.aggCol))))) ∧
    (DataAggregator.mk0.aggregate tableNoNums ["g"] [("m", .name "sum")] =
      .error "No numeric columns found for aggregation") :=
  ⟨⟨rfl,
    (aggregate_value_column_selection DataAggregator.mk0 tableScoreSecond ["g"] "m"
      (.name "sum") .npSum rfl (by simp [tableScoreSecond]) (by simp) rfl rfl).1 rfl⟩,
    (aggregate_value_column_selection DataAggregator.mk0 tableNoNums ["g"] "m"
      (.name "sum") .npSum rfl (by simp [tableNoNums]) (by simp) rfl rfl).2.1 rfl⟩

/-! ### C9 (amended): registering under a builtin string name -/

/-- Two single-metric aggregations with one of the seven builtin string names
agree whenever both registries resolve the name to a non-`len` function: the
string path ignores the resolved function entirely. -/
theorem aggregate_metric_indep {ag1 ag2 : DataAggregator} {data : Table}
    {G : List ColName} {out : ColName} {n : String} {f1 f2 : PyFunc}
    (h1 : resolveMetric ag1 (.name n) = .ok f1)
    (h2 : resolveMetric ag2 (.name n) = .ok f2)
    (hf1 : f1.isLen = false) (hf2 : f2.isLen = false) (hn : n ∈ builtinAggNames) :
    ag1.aggregate data G [(out, .name n)] = ag2.aggregate data G [(out, .name n)] := by
  unfold DataAggregator.aggregate
  by_cases hemp : data.empty = true
  · rw [hemp]; simp
  · rw [Bool.not_eq_true] at hemp
    rw [hemp]
    simp only [Bool.false_eq_true, if_false]
    cases hchk : checkGroupCols G data.cols with
    | error e => rfl
    | ok u =>
      by_cases hG : G.isEmpty = true
      · simp [hG]
      · rw [Bool.not_eq_true] at hG
        simp only [hG, Bool.false_eq_true, if_false, applyMetricsLoop, h1, h2,
          applyMetric, hf1, hf2, appliedFn, hn, if_true]

/-- C9 (amended): for every function `f` other than the row-count builtin
`len`, and every builtin name `n` among mean/median/std/min/max/sum/var,
registering `f` under `n` and then aggregating with `n` requested by string
name returns exactly what aggregation without the registration returns: the
dataframe library's string aggregation is used and the registry entry is
ignored. (`f = len` is excluded: the `func == len` test would reroute the
metric to the row-count path, as the counterexample shows.) -/
theorem register_builtin_name_ignored (f : PyFunc) (n : String) (data : Table)
    (G : List ColName) (out : ColName) (hf : f.isLen = false)
    (hn : n ∈ builtinAggNames) :
    (DataAggregator.mk0.register_aggregation_function n f).aggregate data G
        [(out, .name n)] =
      DataAggregator.mk0.aggregate data G [(out, .name n)] := by
  have hres1 : resolveMetric (DataAggregator.mk0.register_aggregation_function n f)
      (.name n) = .ok f := by
    simp [resolveMetric, lookupFn, DataAggregator.register_aggregation_function]
  simp only [builtinAggNames, List.mem_cons, List.not_mem_nil, or_false] at hn
  rcases hn with rfl | rfl | rfl | rfl | rfl | rfl | rfl
  · exact aggregate_metric_indep hres1 rfl hf rfl (by simp [builtinAggNames])
  · exact aggregate_metric_indep hres1 rfl hf rfl (by simp [builtinAggNames])
  · exact aggregate_metric_indep hres1 rfl hf rfl (by simp [builtinAggNames])
  · exact aggregate_metric_indep hres1 rfl hf rfl (by simp [builtinAggNames])
  · exact aggregate_metric_indep hres1 rfl hf rfl (by simp [builtinAggNames])
  · exact aggregate_metric_indep hres1 rfl hf rfl (by simp [builtinAggNames])
  · exact aggregate_metric_indep hres1 rfl hf rfl (by simp [builtinAggNames])

/-- Witness for C9's amended theorem: a custom callable registered under
`"mean"` leaves the aggregation output unchanged. -/
theorem register_builtin_name_ignored_witness :
    PyFunc.isLen (.custom (fun _ => .num 99)) = false ∧ "mean" ∈ builtinAggNames ∧
    (DataAggregator.mk0.register_aggregation_function "mean"
        (.custom (fun _ => .num 99))).aggregate tableRegPair ["g"] [("m", .name "mean")] =
      DataAggregator.mk0.aggregate tableRegPair ["g"] [("m", .name "mean")] :=
  ⟨rfl, by simp [builtinAggNames],
    register_builtin_name_ignored (.custom (fun _ => .num 99)) "mean" tableRegPair
      ["g"] "m" rfl (by simp [builtinAggNames])⟩

/-! ### Counting lemmas for the group partition -/

theorem mem_uniqueFirstAux {α : Type} [DecidableEq α] {l seen : List α} {k : α}
    (h : k ∈ uniqueFirstAux seen l) : k ∉ seen := by
  induction l generalizing seen with
  | nil => cases h
  | cons a l ih =>
    simp only [uniqueFirstAux] at h
    by_cases ha : a ∈ seen
    · rw [if_pos ha] at h
      exact ih h
    · rw [if_neg ha] at h
      rcases List.mem_cons.mp h with rfl | h2
      · exact ha
      · exact fun hk => ih h2 (List.mem_cons_of_mem a hk)

theorem mem_of_mem_uniqueFirstAux {α : Type} [DecidableEq α] {l seen : List α} {k : α}
    (h : k ∈ uniqueFirstAux seen l) : k ∈ l := by
  induction l generalizing seen with
  | nil => cases h
  | cons a l ih =>
    simp only [uniqueFirstAux] at h
    by_cases ha : a ∈ seen
    · rw [if_pos ha] at h
      exact List.mem_cons_of_mem a (ih h)
    · rw [if_neg ha] at h
      rcases List.mem_cons.mp h with rfl | h2
      · exact List.mem_cons_self k l
      · exact List.mem_cons_of_mem a (ih h2)

theorem countP_mem_cons {α : Type} [DecidableEq α] {a : α} {seen : List α}
    (ha : a ∉ seen) (l : List α) :
    l.countP (fun x => decide (x ∈ a :: seen)) =
      l.countP (fun x => decide (x = a)) + l.countP (fun x => decide (x ∈ seen)) := by
  induction l with
  | nil => rfl
  | cons x l ih =>
    simp only [List.countP_cons, ih]
    by_cases hxa : x = a
    · subst hxa
      simp [ha]
      omega
    · by_cases hxs : x ∈ seen
      · simp [hxa, hxs]
        omega
      · simp [hxa, hxs]

theorem uniqueFirstAux_counts {α : Type} [DecidableEq α] (l : List α) :
    ∀ seen : List α,
      ((uniqueFirstAux seen l).map (fun k => l.countP (fun x => decide (x = k)))).sum +
        l.countP (fun x => decide (x ∈ seen)) = l.length := by
  induction l with
  | nil => intro seen; rfl
  | cons a l ih =>
    intro seen
    by_cases ha : a ∈ seen
    · simp only [uniqueFirstAux, if_pos ha]
      have hmap : (uniqueFirstAux seen l).map
            (fun k => (a :: l).countP (fun x => decide (x = k))) =
          (uniqueFirstAux seen l).map (fun k => l.countP (fun x => decide (x = k))) := by
        refine List.map_congr_left fun k hk => ?_
        have hk2 : a ≠ k := fun h => (mem_uniqueFirstAux hk) (h ▸ ha)
        simp [List.countP_cons, hk2]
      rw [hmap]
      have hcnt : (a :: l).countP (fun x => decide (x ∈ seen)) =
          l.countP (fun x => decide (x ∈ seen)) + 1 := by
        simp [List.countP_cons, ha]
      rw [hcnt]
      have := ih seen
      simp only [List.length_cons]
      omega
    · simp only [uniqueFirstAux, if_neg ha, List.map_cons, List.sum_cons]
      have hmap : (uniqueFirstAux (a :: seen) l).map
            (fun k => (a :: l).countP (fun x => decide (x = k))) =
          (uniqueFirstAux (a :: seen) l).map
            (fun k => l.countP (fun x => decide (x = k))) := by
        refine List.map_congr_left fun k hk => ?_
        have hk2 : a ≠ k := fun h =>
          (mem_uniqueFirstAux hk) (h ▸ List.mem_cons_self a seen)
        simp [List.countP_cons, hk2]
      rw [hmap]
      have hhead : (a :: l).countP (fun x => decide (x = a)) =
          l.countP (fun x => decide (x = a)) + 1 := by
        simp [List.countP_cons]
      have hcnt : (a :: l).countP (fun x => decide (x ∈ seen)) =
          l.countP (fun x => decide (x ∈ seen)) := by
        simp [List.countP_cons, ha]
      rw [hhead, hcnt]
      have hsplit := countP_mem_cons ha l
      have := ih (a :: seen)
      simp only [List.length_cons]
      omega

/-- The distinct keys of a list, each weighted by its multiplicity, partition
the list. -/
theorem uniqueFirst_counts {α : Type} [DecidableEq α] (l : List α) :
    ((uniqueFirst l).map (fun k => l.countP (fun x => decide (x = k)))).sum =
      l.length := by
  have h := uniqueFirstAux_counts l []
  simpa [uniqueFirst] using h

theorem colIdx?_eq_none {c : ColName} {cols : List ColName} (h : c ∉ cols) :
    colIdx? c cols = none := by
  induction cols with
  | nil => rfl
  | cons c2 rest ih =>
    have h1 : c2 ≠ c := fun he => h (he ▸ List.mem_cons_self c2 rest)
    simp only [colIdx?, if_neg h1]
    rw [ih fun hm => h (List.mem_cons_of_mem c2 hm)]
    rfl

theorem colIdx?_append_self {c : ColName} {cols : List ColName} (h : c ∉ cols) :
    colIdx? c (cols ++ [c]) = some cols.length := by
  induction cols with
  | nil => simp [colIdx?]
  | cons c2 rest ih =>
    have h1 : c2 ≠ c := fun he => h (he ▸ List.mem_cons_self c2 rest)
    simp only [List.cons_append, colIdx?, if_neg h1, List.append_eq,
      ih fun hm => h (List.mem_cons_of_mem c2 hm), Option.map_some]
    rfl

theorem map_getD_zipWith_append {n : ℕ} (rows : List Row) (vals : List Value)
    (hlen : ∀ r ∈ rows, r.length = n) (hv : rows.length = vals.length) :
    (rows.zipWith (fun r v => r ++ [v]) vals).map (fun r => r.getD n .null) = vals := by
  induction rows generalizing vals with
  | nil =>
    cases vals with
    | nil => rfl
    | cons v vs => cases hv
  | cons r rows ih =>
    cases vals with
    | nil => cases hv
    | cons v vs =>
      simp only [List.zipWith_cons_cons, List.map_cons]
      have hr : r.length = n := hlen r (List.mem_cons_self r rows)
      have hget : (r ++ [v]).getD n .null = v := by
        subst hr
        simp [List.getD, List.getElem?_append_right (Nat.le_refl _)]
      rw [hget, ih vs (fun r2 h2 => hlen r2 (List.mem_cons_of_mem r h2))
        (Nat.succ_injective hv)]

/-- Reading back a freshly appended column gives exactly the assigned
values. -/
theorem column_setCol_fresh {t : Table} {c : ColName} {vals : List Value}
    (hc : c ∉ t.cols) (hlen : ∀ r ∈ t.rows, r.length = t.cols.length)
    (hv : t.rows.length = vals.length) :
    (t.setCol c vals).column c = vals := by
  unfold Table.setCol
  rw [colIdx?_eq_none hc]
  unfold Table.column Table.cellAt
  simp only [colIdx?_append_self hc]
  exact map_getD_zipWith_append t.rows vals hlen hv

/-- Every group key has one cell per group-by column. -/
theorem groupKeys_length {data : Table} {G : List ColName} {k : List Value}
    (hk : k ∈ data.groupKeys G) : k.length = G.length := by
  have h1 : k ∈ (data.validRows G).map (data.keyOf G) := mem_of_mem_uniqueFirstAux hk
  obtain ⟨r, _, hr⟩ := List.mem_map.mp h1
  rw [← hr]
  exact List.length_map _ _

/-- The group sizes partition the rows surviving the key-null drop. -/
theorem groupSizes_sum (data : Table) (G : List ColName) :
    ((data.groupKeys G).map (fun k => data.groupSize G k)).sum =
      (data.validRows G).length := by
  have h := uniqueFirst_counts ((data.validRows G).map (data.keyOf G))
  rw [List.length_map] at h
  rw [show data.groupKeys G = uniqueFirst ((data.validRows G).map (data.keyOf G))
    from rfl, ← h]
  congr 1
  refine List.map_congr_left fun k _ => ?_
  rw [List.countP_map, Table.groupSize, Table.groupRows,
    List.countP_eq_length_filter]
  rfl

/-! ### C6 (amended): the count metric returns group sizes -/

/-- C6 (amended): for every non-empty table and valid group-by list, the
metric `{"count": "count"}` yields a count column whose per-group values are
the group row counts (independent of null content in non-key columns), and
the sum of those counts equals the number of rows whose group-key cells are
all non-null — which is `len(T)` exactly when no group-key cell is null,
since `groupby` drops rows with a null key. -/
theorem aggregate_count_group_sizes (data : Table) (G : List ColName)
    (hne : data.empty = false) (hG : ∀ c ∈ G, c ∈ data.cols) (hG0 : G ≠ []) :
    (DataAggregator.mk0.aggregate data G [("count", .name "count")] =
      .ok (Table.setCol ⟨G, data.groupKeys G⟩ "count"
        ((data.groupKeys G).map (fun k => .num (data.groupSize G k))))) ∧
    ("count" ∉ G →
      (Table.setCol ⟨G, data.groupKeys G⟩ "count"
        ((data.groupKeys G).map (fun k => .num (data.groupSize G k)))).column
          "count" =
        (data.groupKeys G).map (fun k => .num (data.groupSize G k))) ∧
    ((data.groupKeys G).map (fun k => data.groupSize G k)).sum =
      (data.validRows G).length ∧
    ((∀ r ∈ data.rows, Value.null ∉ data.keyOf G r) →
      ((data.groupKeys G).map (fun k => data.groupSize G k)).sum =
        data.rows.length) := by
  refine ⟨?_, ?_, groupSizes_sum data G, ?_⟩
  · rw [aggregate_single hne hG hG0 (show resolveMetric DataAggregator.mk0
      (.name "count") = .ok .lenFn from rfl)]
    simp only [applyMetric, PyFunc.isLen, if_true]
  · intro hcnt
    refine column_setCol_fresh hcnt (fun r hr => groupKeys_length hr) ?_
    exact (List.length_map _ _).symm
  · intro hnull
    rw [groupSizes_sum data G]
    unfold Table.validRows
    rw [List.filter_eq_self.mpr fun r hr => by simpa using hnull r hr]

/-- Three rows, two groups, no null keys. -/
def tableCountWit : Table :=
  ⟨["g", "score"], [[.str "a", .num 1], [.str "b", .num 2], [.str "a", .num 3]]⟩

/-- Witness for C6's amended theorem at a concrete two-group table. -/
theorem aggregate_count_group_sizes_witness :
    Table.empty tableCountWit = false ∧ (∀ c ∈ ["g"], c ∈ tableCountWit.cols) ∧
    (["g"] ≠ ([] : List ColName)) ∧
    (∀ r ∈ tableCountWit.rows, Value.null ∉ tableCountWit.keyOf ["g"] r) ∧
    ((DataAggregator.mk0.aggregate tableCountWit ["g"] [("count", .name "count")] =
      .ok (Table.setCol ⟨["g"], tableCountWit.groupKeys ["g"]⟩ "count"
        ((tableCountWit.groupKeys ["g"]).map
          (fun k => .num (tableCountWit.groupSize ["g"] k))))) ∧
    ((tableCountWit.groupKeys ["g"]).map
        (fun k => tableCountWit.groupSize ["g"] k)).sum =
      tableCountWit.rows.length) := by
  have h := aggregate_count_group_sizes tableCountWit ["g"] rfl
    (by simp [tableCountWit]) (by simp)
  exact ⟨rfl, by simp [tableCountWit], by simp, by decide,
    h.1, h.2.2.2 (by decide)⟩

/-! ### Heap lemmas -/

theorem getT_allocT (h : Heap) (t : Table) :
    (h.allocT t).1.getT (h.allocT t).2 = t := by
  simp [Heap.allocT, Heap.getT, List.getD, List.getElem?_append_right (Nat.le_refl _)]

theorem getT_allocT_lt (h : Heap) (t : Table) {r : Ref} (hr : r < h.length) :
    (h.allocT t).1.getT r = h.getT r := by
  simp [Heap.allocT, Heap.getT, List.getD, List.getElem?_append_left hr]

theorem length_allocT (h : Heap) (t : Table) : (h.allocT t).1.length = h.length + 1 := by
  simp [Heap.allocT]

theorem ref_allocT (h : Heap) (t : Table) : (h.allocT t).2 = h.length := rfl

theorem getT_setT_ne (h : Heap) (r2 : Ref) (t : Table) {r : Ref} (hr : r ≠ r2) :
    (h.setT r2 t).getT r = h.getT r := by
  simp [Heap.setT, Heap.getT, List.getD, List.getElem?_set_ne (Ne.symm hr)]

theorem length_setT (h : Heap) (r2 : Ref) (t : Table) :
    (h.setT r2 t).length = h.length := by
  simp [Heap.setT]

/-- Unfolding of `aggregate` on a valid non-empty call whose single metric
fails to resolve. -/
theorem aggregate_single_resolve_error {ag : DataAggregator} {data : Table}
    {G : List ColName} {out : ColName} {spec : MetricSpec} {e : String}
    (hne : data.empty = false) (hG : ∀ c ∈ G, c ∈ data.cols) (hG0 : G ≠ [])
    (hres : resolveMetric ag spec = .error e) :
    ag.aggregate data G [(out, spec)] = .error e := by
  have h0 : G.isEmpty = false := by
    cases G with
    | nil => exact absurd rfl hG0
    | cons a l => rfl
  unfold DataAggregator.aggregate
  rw [hne, checkGroupCols_ok hG]
  simp only [Bool.false_eq_true, if_false, h0, applyMetricsLoop, hres]

/-- Error propagation through the stage loop: if the stages before `bad` run
fine and `bad` raises, the whole loop raises. -/
theorem runStagesH_error_propagates (ag : DataAggregator) (pre : List Stage) :
    ∀ (h : Heap) (cur : Ref) (bad : Stage) (post : List Stage) (h1 : Heap)
      (res1 : List (String × Ref)) (cur1 : Ref) (e : String),
      runStagesH ag h cur pre = .ok (h1, res1, cur1) →
      runStageH ag h1 cur1 bad = .error e →
      runStagesH ag h cur (pre ++ bad :: post) = .error e := by
  induction pre with
  | nil =>
    intro h cur bad post h1 res1 cur1 e hok hbad
    simp only [runStagesH, Except.ok.injEq, Prod.mk.injEq] at hok
    obtain ⟨rfl, -, rfl⟩ := hok
    simp only [List.nil_append, runStagesH, hbad]
  | cons st pre ih =>
    intro h cur bad post h1 res1 cur1 e hok hbad
    simp only [List.cons_append, runStagesH] at hok ⊢
    cases hs : runStageH ag h cur st with
    | error e2 =>
      rw [hs] at hok
      cases hok
    | ok p =>
      obtain ⟨h2, sd⟩ := p
      rw [hs] at hok
      dsimp only at hok ⊢
      cases hrest : runStagesH ag h2 (if st.output_to_next then sd else cur) pre with
      | error e2 =>
        rw [hrest] at hok
        cases hok
      | ok q =>
        obtain ⟨h3, res3, cur3⟩ := q
        rw [hrest] at hok
        simp only [Except.ok.injEq, Prod.mk.injEq] at hok
        obtain ⟨rfl, -, rfl⟩ := hok
        simp only [List.append_eq]
        rw [ih _ _ bad post _ _ _ e hrest hbad]

/-- With no filter and no transform, stage preparation is exactly the
defensive copy. -/
theorem stagePrep_plain {h : Heap} {cur : Ref} {st : Stage} (hf : st.filter = none)
    (ht : st.transform = none) : stagePrep h cur st = h.allocT (h.getT cur) := by
  unfold stagePrep
  rw [hf, ht]

/-! ### C5 (amended): configuration errors raise synchronously and abort -/

/-- C5 (amended): for every non-empty input, requesting a metric by an
unregistered string name, or a group-by column not present in the table,
raises a configuration error synchronously (on an empty input `aggregate`
returns its empty result before validating, per the counterexample); when a
stage raises inside `multi_level_pipeline` the whole run aborts by
propagating the exception, so the caller receives no partial per-stage
results mapping — and in particular a stage whose grouped metrics contain an
unknown name raises as soon as its aggregation runs. -/
theorem aggregate_config_errors_raise_and_abort (ag : DataAggregator) :
    (∀ (data : Table) (G : List ColName) (out : ColName) (s : String),
      data.empty = false → (∀ c ∈ G, c ∈ data.cols) → G ≠ [] →
      lookupFn ag.aggregation_functions s = none →
      ag.aggregate data G [(out, .name s)] =
        .error ("Unknown aggregation function: " ++ s)) ∧
    (∀ (data : Table) (G : List ColName) (M : Metrics) (c : ColName),
      data.empty = false → c ∈ G → c ∉ data.cols →
      ∃ msg, ag.aggregate data G M = .error msg) ∧
    (∀ (h : Heap) (r : Ref) (pre : List Stage) (bad : Stage) (post : List Stage)
        (h1 : Heap) (res1 : List (String × Ref)) (cur1 : Ref) (e : String),
      runStagesH ag (h.allocT (h.getT r)).1 (h.allocT (h.getT r)).2 pre =
        .ok (h1, res1, cur1) →
      runStageH ag h1 cur1 bad = .error e →
      ag.multi_level_pipeline h r (pre ++ bad :: post) = .error e) ∧
    (∀ (h : Heap) (cur : Ref) (st : Stage) (m : Metrics) (g : List ColName) (e : String),
      st.filter = none → st.transform = none → st.metrics = some m →
      m.isEmpty = false → st.group_by = some g → g.isEmpty = false →
      ag.aggregate (h.getT cur) g m = .error e →
      runStageH ag h cur st = .error e) := by
  refine ⟨?_, ?_, ?_, ?_⟩
  · intro data G out s hne hG hG0 hs
    exact aggregate_single_resolve_error hne hG hG0 (by simp [resolveMetric, hs])
  · intro data G M c hne hc hcol
    obtain ⟨msg, hmsg⟩ := checkGroupCols_error hc hcol
    refine ⟨msg, ?_⟩
    unfold DataAggregator.aggregate
    rw [hne, hmsg]
    simp
  · intro h r pre bad post h1 res1 cur1 e hok hbad
    unfold DataAggregator.multi_level_pipeline
    rw [runStagesH_error_propagates ag pre _ _ bad post _ _ _ e hok hbad]
  · intro h cur st m g e hf ht hm hm0 hg hg0 hagg
    unfold runStageH
    simp only [hm, hm0, Bool.false_eq_true, if_false, hg, hg0]
    rw [stagePrep_plain hf ht, getT_allocT, hagg]

/-- One row, one group column, for the C5 witness. -/
def tableOneRow : Table := ⟨["g", "score"], [[.str "a", .num 1]]⟩

/-- A stage whose grouped metrics request an unregistered name. -/
def stageBadMetric : Stage :=
  { name := "s1", metrics := some [("m", .name "bogus")], group_by := some ["g"] }

/-- Witness for C5's amended theorem: the unknown-name error, the missing
column error, and the pipeline abort, at concrete inputs. -/
theorem aggregate_config_errors_raise_and_abort_witness :
    (DataAggregator.mk0.aggregate tableOneRow ["g"] [("m", .name "bogus")] =
      .error "Unknown aggregation function: bogus") ∧
    (∃ msg, DataAggregator.mk0.aggregate tableOneRow ["zzz"] [("m", .name "mean")] =
      .error msg) ∧
    (DataAggregator.mk0.multi_level_pipeline [tableOneRow] 0 [stageBadMetric] =
      .error "Unknown aggregation function: bogus") ∧
    (runStageH DataAggregator.mk0 [tableOneRow, tableOneRow] 1 stageBadMetric =
      .error "Unknown aggregation function: bogus") := by
  have h := aggregate_config_errors_raise_and_abort DataAggregator.mk0
  refine ⟨?_, ?_, ?_, ?_⟩
  · exact h.1 tableOneRow ["g"] "m" "bogus" rfl (by simp [tableOneRow]) (by simp) rfl
  · exact h.2.1 tableOneRow ["zzz"] [("m", .name "mean")] "zzz" rfl (by simp)
      (by simp [tableOneRow])
  · exact h.2.2.1 [tableOneRow] 0 [] stageBadMetric [] _ _ _ _ rfl rfl
  · exact h.2.2.2 [tableOneRow, tableOneRow] 1 stageBadMetric [("m", .name "bogus")]
      ["g"] _ rfl rfl rfl rfl rfl rfl rfl

/-! ### Frame lemmas: a stage never touches pre-existing objects -/

theorem stagePrep_preserves (h : Heap) (cur : Ref) (st : Stage) :
    h.length ≤ (stagePrep h cur st).1.length ∧ h.length ≤ (stagePrep h cur st).2 ∧
      (stagePrep h cur st).2 < (stagePrep h cur st).1.length ∧
      ∀ r < h.length, (stagePrep h cur st).1.getT r = h.getT r := by
  have halloc : ∀ (h0 : Heap) (t : Table), h.length ≤ h0.length →
      (∀ r < h.length, h0.getT r = h.getT r) →
      h.length ≤ (h0.allocT t).1.length ∧ h.length ≤ (h0.allocT t).2 ∧
        (h0.allocT t).2 < (h0.allocT t).1.length ∧
        ∀ r < h.length, (h0.allocT t).1.getT r = h.getT r := by
    intro h0 t hn hpre
    refine ⟨by rw [length_allocT]; exact Nat.le_succ_of_le hn,
      by rw [ref_allocT]; exact hn,
      by rw [ref_allocT, length_allocT]; exact Nat.lt_succ_self _, fun r hr => ?_⟩
    rw [getT_allocT_lt h0 t (lt_of_lt_of_le hr hn)]
    exact hpre r hr
  have h1 := halloc h (h.getT cur) (Nat.le_refl _) (fun r _ => rfl)
  unfold stagePrep
  cases st.filter with
  | none =>
    cases st.transform with
    | none => exact h1
    | some f =>
      dsimp only
      exact halloc _ (f ((h.allocT (h.getT cur)).1.getT (h.allocT (h.getT cur)).2))
        h1.1 h1.2.2.2
  | some pred =>
    have h2 := halloc _ (filterTable pred
      ((h.allocT (h.getT cur)).1.getT (h.allocT (h.getT cur)).2)) h1.1 h1.2.2.2
    cases st.transform with
    | none =>
      dsimp only
      exact h2
    | some f =>
      dsimp only
      exact halloc _ (f (((h.allocT (h.getT cur)).1.allocT (filterTable pred
        ((h.allocT (h.getT cur)).1.getT (h.allocT (h.getT cur)).2))).1.getT
        ((h.allocT (h.getT cur)).1.allocT (filterTable pred
        ((h.allocT (h.getT cur)).1.getT (h.allocT (h.getT cur)).2))).2))
        h2.1 h2.2.2.2

theorem runRowMetricsH_preserves (ag : DataAggregator) (m : Metrics) :
    ∀ (h : Heap) (sd : Ref) (h2 : Heap), runRowMetricsH ag m h sd = .ok h2 →
      h2.length = h.length ∧ ∀ r, r ≠ sd → h2.getT r = h.getT r := by
  induction m with
  | nil =>
    intro h sd h2 hok
    simp only [runRowMetricsH, Except.ok.injEq] at hok
    subst hok
    exact ⟨rfl, fun _ _ => rfl⟩
  | cons p m ih =>
    intro h sd h2 hok
    obtain ⟨colName, spec⟩ := p
    simp only [runRowMetricsH] at hok
    cases hres : resolveRowMetric ag spec with
    | error e => rw [hres] at hok; cases hok
    | ok func =>
      rw [hres] at hok
      dsimp only at hok
      have h1 := ih _ sd h2 hok
      refine ⟨by rw [h1.1, length_setT], fun r hr => ?_⟩
      rw [h1.2 r hr, getT_setT_ne _ _ _ hr]

theorem runStageH_preserves {ag : DataAggregator} {h : Heap} {cur : Ref} {st : Stage}
    {h2 : Heap} {sd : Ref} (hok : runStageH ag h cur st = .ok (h2, sd)) :
    h.length ≤ h2.length ∧ h.length ≤ sd ∧ sd < h2.length ∧
      ∀ r < h.length, h2.getT r = h.getT r := by
  have hp := stagePrep_preserves h cur st
  unfold runStageH at hok
  dsimp only at hok
  cases hm : st.metrics with
  | none =>
    rw [hm] at hok
    simp only [Except.ok.injEq, Prod.mk.injEq] at hok
    obtain ⟨rfl, rfl⟩ := hok
    exact hp
  | some m =>
    rw [hm] at hok
    dsimp only at hok
    by_cases hm0 : m.isEmpty = true
    · rw [if_pos hm0] at hok
      simp only [Except.ok.injEq, Prod.mk.injEq] at hok
      obtain ⟨rfl, rfl⟩ := hok
      exact hp
    · rw [if_neg hm0] at hok
      have hrow : ∀ h4 : Heap,
          runRowMetricsH ag m (stagePrep h cur st).1 (stagePrep h cur st).2 = .ok h4 →
          h2 = h4 → sd = (stagePrep h cur st).2 →
          h.length ≤ h2.length ∧ h.length ≤ sd ∧ sd < h2.length ∧
            ∀ r < h.length, h2.getT r = h.getT r := by
        intro h4 hok4 hh2 hsd
        subst hh2; subst hsd
        have h5 := runRowMetricsH_preserves ag m _ _ _ hok4
        refine ⟨by rw [h5.1]; exact hp.1, hp.2.1, by rw [h5.1]; exact hp.2.2.1,
          fun r hr => ?_⟩
        have hne : r ≠ (stagePrep h cur st).2 := by
          have := hp.2.1
          omega
        rw [h5.2 r hne, hp.2.2.2 r hr]
      cases hg : st.group_by with
      | some g =>
        rw [hg] at hok
        dsimp only at hok
        by_cases hg0 : g.isEmpty = true
        · rw [if_pos hg0] at hok
          cases hrun : runRowMetricsH ag m (stagePrep h cur st).1
              (stagePrep h cur st).2 with
          | error e => rw [hrun] at hok; cases hok
          | ok h4 =>
            rw [hrun] at hok
            simp only [Except.ok.injEq, Prod.mk.injEq] at hok
            exact hrow h4 hrun hok.1.symm hok.2.symm
        · rw [if_neg hg0] at hok
          cases hagg : ag.aggregate ((stagePrep h cur st).1.getT
              (stagePrep h cur st).2) g m with
          | error e => rw [hagg] at hok; cases hok
          | ok res =>
            rw [hagg] at hok
            have hpair : ((stagePrep h cur st).1.allocT res) = (h2, sd) := by
              injection hok
            have hh2 : h2 = ((stagePrep h cur st).1.allocT res).1 := by rw [hpair]
            have hsd : sd = ((stagePrep h cur st).1.allocT res).2 := by rw [hpair]
            subst hh2
            subst hsd
            refine ⟨by rw [length_allocT]; exact le_trans hp.1 (Nat.le_succ _),
              by rw [ref_allocT]; exact hp.1,
              by rw [ref_allocT, length_allocT]; exact Nat.lt_succ_self _,
              fun r hr => ?_⟩
            rw [getT_allocT_lt _ _ (lt_of_lt_of_le hr hp.1), hp.2.2.2 r hr]
      | none =>
        rw [hg] at hok
        cases hrun : runRowMetricsH ag m (stagePrep h cur st).1
            (stagePrep h cur st).2 with
        | error e => rw [hrun] at hok; cases hok
        | ok h4 =>
          rw [hrun] at hok
          simp only [Except.ok.injEq, Prod.mk.injEq] at hok
          exact hrow h4 hrun hok.1.symm hok.2.symm

theorem runStagesH_preserves (ag : DataAggregator) (stages : List Stage) :
    ∀ (h : Heap) (cur : Ref) (h2 : Heap) (res : List (String × Ref)) (curF : Ref),
      runStagesH ag h cur stages = .ok (h2, res, curF) →
      h.length ≤ h2.length ∧ ∀ r < h.length, h2.getT r = h.getT r := by
  induction stages with
  | nil =>
    intro h cur h2 res curF hok
    simp only [runStagesH, Except.ok.injEq, Prod.mk.injEq] at hok
    obtain ⟨rfl, -, -⟩ := hok
    exact ⟨Nat.le_refl _, fun _ _ => rfl⟩
  | cons st rest ih =>
    intro h cur h2 res curF hok
    simp only [runStagesH] at hok
    cases hs : runStageH ag h cur st with
    | error e => rw [hs] at hok; cases hok
    | ok p =>
      obtain ⟨h1, sd⟩ := p
      rw [hs] at hok
      dsimp only at hok
      cases hrest : runStagesH ag h1 (if st.output_to_next then sd else cur) rest with
      | error e => rw [hrest] at hok; cases hok
      | ok q =>
        obtain ⟨h3, res3, cur3⟩ := q
        rw [hrest] at hok
        simp only [Except.ok.injEq, Prod.mk.injEq] at hok
        obtain ⟨rfl, -, -⟩ := hok
        have hst := runStageH_preserves hs
        have hr := ih h1 _ _ _ _ hrest
        refine ⟨le_trans hst.1 hr.1, fun r hrlt => ?_⟩
        rw [hr.2 r (lt_of_lt_of_le hrlt hst.1), hst.2.2.2 r hrlt]

/-! ### C8: the pipeline never mutates the caller's input table -/

/-- C8: for every input table and stage list whose filter, transform, and
metric functions are pure, a successful `multi_level_pipeline` run leaves the
object the caller passed in unchanged — same columns, rows, and values — the
run only ever copies it (`data.copy()` / `current.copy()`) and mutates
freshly allocated stage objects. -/
theorem multi_level_pipeline_preserves_input (ag : DataAggregator) (h : Heap)
    (r : Ref) (stages : List Stage) (h2 : Heap) (res : List (String × Ref))
    (hr : r < h.length)
    (hok : ag.multi_level_pipeline h r stages = .ok (h2, res)) :
    h2.getT r = h.getT r := by
  unfold DataAggregator.multi_level_pipeline at hok
  cases hrun : runStagesH ag (h.allocT (h.getT r)).1 (h.allocT (h.getT r)).2 stages with
  | error e => rw [hrun] at hok; cases hok
  | ok q =>
    obtain ⟨h3, res3, cur3⟩ := q
    rw [hrun] at hok
    simp only [Except.ok.injEq, Prod.mk.injEq] at hok
    obtain ⟨rfl, -⟩ := hok
    have hp := runStagesH_preserves ag stages _ _ _ _ _ hrun
    have hlt : r < (h.allocT (h.getT r)).1.length := by
      rw [length_allocT]
      exact Nat.lt_succ_of_lt hr
    rw [hp.2 r hlt, getT_allocT_lt _ _ hr]

/-- A stage with no filter, transform or metrics. -/
def stageCPlain : Stage := { name := "C" }

/-- Witness for C8: a concrete pipeline run whose final heap still holds the
caller's table at the input reference. -/
theorem multi_level_pipeline_preserves_input_witness :
    (0 : Ref) < ([tableOneRow] : Heap).length ∧
    DataAggregator.mk0.multi_level_pipeline [tableOneRow] 0 [stageCPlain] =
      .ok ([tableOneRow, tableOneRow, tableOneRow], [("C", 2)]) ∧
    Heap.getT [tableOneRow, tableOneRow, tableOneRow] 0 =
      Heap.getT [tableOneRow] 0 :=
  ⟨by decide, rfl,
    multi_level_pipeline_preserves_input DataAggregator.mk0 [tableOneRow] 0
      [stageCPlain] _ _ (by decide) rfl⟩

/-! ### C3: output_to_next threading -/

/-- C3: state is threaded only through stages marked `output_to_next`: a
stage with the flag absent or false leaves the carried-forward current table
unchanged (the rest of the pipeline runs from the same `cur`), so in a
pipeline `[A (true), B (false), C]` stage C runs on A's output reference
`sdA` — whose table value B's run has not touched — not on B's output. -/
theorem pipeline_output_to_next_threading (ag : DataAggregator) :
    (∀ (h : Heap) (cur : Ref) (st : Stage) (rest : List Stage) (h1 : Heap) (sd : Ref),
      st.output_to_next = false →
      runStageH ag h cur st = .ok (h1, sd) →
      runStagesH ag h cur (st :: rest) =
        Except.map (fun q => (q.1, (st.name, sd) :: q.2.1, q.2.2))
          (runStagesH ag h1 cur rest)) ∧
    (∀ (h : Heap) (r : Ref) (A B C : Stage) (hp : Heap × List (String × Ref)),
      A.output_to_next = true → B.output_to_next = false →
      ag.multi_level_pipeline h r [A, B, C] = .ok hp →
      ∃ (h1 : Heap) (sdA : Ref) (h2 : Heap) (sdB : Ref) (h3 : Heap) (sdC : Ref),
        runStageH ag (h.allocT (h.getT r)).1 (h.allocT (h.getT r)).2 A =
          .ok (h1, sdA) ∧
        runStageH ag h1 sdA B = .ok (h2, sdB) ∧
        runStageH ag h2 sdA C = .ok (h3, sdC) ∧
        h2.getT sdA = h1.getT sdA ∧
        hp.2 = [(A.name, sdA), (B.name, sdB), (C.name, sdC)]) := by
  constructor
  · intro h cur st rest h1 sd hfalse hok
    simp only [runStagesH, hok, hfalse, Bool.false_eq_true, if_false]
    cases hrest : runStagesH ag h1 cur rest with
    | error e => rfl
    | ok q => rfl
  · intro h r A B C hp htrue hfalse hok
    unfold DataAggregator.multi_level_pipeline at hok
    cases hrun : runStagesH ag (h.allocT (h.getT r)).1 (h.allocT (h.getT r)).2
        [A, B, C] with
    | error e => rw [hrun] at hok; cases hok
    | ok q =>
      obtain ⟨hF, resF, curF⟩ := q
      rw [hrun] at hok
      simp only [Except.ok.injEq] at hok
      obtain rfl := hok
      simp only [runStagesH] at hrun
      cases hA : runStageH ag (h.allocT (h.getT r)).1 (h.allocT (h.getT r)).2 A with
      | error e => rw [hA] at hrun; cases hrun
      | ok pA =>
        obtain ⟨h1, sdA⟩ := pA
        rw [hA] at hrun
        dsimp only at hrun
        rw [htrue] at hrun
        simp only [if_true] at hrun
        cases hB : runStageH ag h1 sdA B with
        | error e => rw [hB] at hrun; cases hrun
        | ok pB =>
          obtain ⟨h2, sdB⟩ := pB
          rw [hB] at hrun
          dsimp only at hrun
          rw [hfalse] at hrun
          simp only [Bool.false_eq_true, if_false] at hrun
          cases hC : runStageH ag h2 sdA C with
          | error e => rw [hC] at hrun; cases hrun
          | ok pC =>
            obtain ⟨h3, sdC⟩ := pC
            rw [hC] at hrun
            dsimp only at hrun
            simp only [Except.ok.injEq, Prod.mk.injEq] at hrun
            obtain ⟨rfl, hlist, -⟩ := hrun
            have hpresA := runStageH_preserves hA
            have hpresB := runStageH_preserves hB
            refine ⟨h1, sdA, h2, sdB, h3, sdC, rfl, hB, hC, ?_, ?_⟩
            · exact hpresB.2.2.2 sdA hpresA.2.2.1
            · exact hlist.symm

/-- A stage adding a constant column `x`, feeding its output forward. -/
def stageAddX : Stage :=
  { name := "A",
    transform := some (fun t => t.setCol "x" (t.rows.map (fun _ => .num 1))),
    output_to_next := true }

/-- A stage adding a constant column `y`, not feeding its output forward. -/
def stageAddY : Stage :=
  { name := "B",
    transform := some (fun t => t.setCol "y" (t.rows.map (fun _ => .num 2))),
    output_to_next := false }

/-- Witness for C3 at a concrete three-stage pipeline
`[A (true), B (false), C]`. -/
theorem pipeline_output_to_next_threading_witness :
    (Stage.output_to_next stageAddY = false ∧
      ∃ h1 sd, runStageH DataAggregator.mk0 [tableOneRow] 0 stageAddY = .ok (h1, sd) ∧
        runStagesH DataAggregator.mk0 [tableOneRow] 0 [stageAddY] =
          Except.map (fun q => (q.1, (stageAddY.name, sd) :: q.2.1, q.2.2))
            (runStagesH DataAggregator.mk0 h1 0 [])) ∧
    (Stage.output_to_next stageAddX = true ∧
      ∃ hp, DataAggregator.mk0.multi_level_pipeline [tableOneRow] 0
          [stageAddX, stageAddY, stageCPlain] = .ok hp ∧
        ∃ h1 sdA h2 sdB h3 sdC,
          runStageH DataAggregator.mk0
            (Heap.allocT [tableOneRow] (Heap.getT [tableOneRow] 0)).1
            (Heap.allocT [tableOneRow] (Heap.getT [tableOneRow] 0)).2
            stageAddX = .ok (h1, sdA) ∧
          runStageH DataAggregator.mk0 h1 sdA stageAddY = .ok (h2, sdB) ∧
          runStageH DataAggregator.mk0 h2 sdA stageCPlain = .ok (h3, sdC) ∧
          h2.getT sdA = h1.getT sdA ∧
          hp.2 = [(stageAddX.name, sdA), (stageAddY.name, sdB),
            (stageCPlain.name, sdC)]) :=
  ⟨⟨rfl, _, _, rfl, (pipeline_output_to_next_threading DataAggregator.mk0).1
      [tableOneRow] 0 stageAddY [] _ _ rfl rfl⟩,
   ⟨rfl, _, rfl, (pipeline_output_to_next_threading DataAggregator.mk0).2
      [tableOneRow] 0 stageAddX stageAddY stageCPlain _ rfl rfl rfl⟩⟩

end Gnosis
